import Mathlib

/-!
Shallow embedding of `main.go` from
`get-aws-network-interfaces-by-security-group-names`.

The program collects repeated `--security-group-names` flag values, and for
each collected name loads the AWS configuration, issues a
`DescribeNetworkInterfaces` call filtered by `group-name`, and prints the
group name followed by one block per returned interface.  The AWS SDK and
the remote API are external collaborators; they are modelled by an `Env`
record of (pure) effect functions.  A Go `panic` is modelled as an error
value of type `GoError`; printed output is modelled as the list of lines
flushed to standard output before the program finished or panicked.
-/

namespace SGNI

/-- Go errors / panic payloads are carried as strings. -/
abbrev GoError := String

/-- Embedding of `types.NetworkInterfaceAttachment`: only the field the program reads.
`InstanceId` is a `*string` in Go, hence `Option String` here. -/
structure NetworkInterfaceAttachment where
  InstanceId : Option String
  deriving DecidableEq

/-- Embedding of `types.NetworkInterface`: the fields the program reads.
`NetworkInterfaceId` is a `*string`, `Attachment` a pointer to a struct,
`Status` a string-valued enum (printed with `%s`). -/
structure NetworkInterface where
  NetworkInterfaceId : Option String
  Attachment : Option NetworkInterfaceAttachment
  Status : String
  deriving DecidableEq

/-- Embedding of `types.Filter`: name (a `*string`) and list of values. -/
structure Filter where
  Name : Option String
  Values : List String
  deriving DecidableEq

/-- Embedding of `ec2.DescribeNetworkInterfacesInput`: only the `Filters` field is set. -/
structure DescribeNetworkInterfacesInput where
  Filters : List Filter
  deriving DecidableEq

/-- Embedding of `ec2.DescribeNetworkInterfacesOutput`: the list of interfaces. -/
structure DescribeNetworkInterfacesOutput where
  NetworkInterfaces : List NetworkInterface
  deriving DecidableEq

/-- Embedding of `types.SecurityGroup`: only the `GroupName` (`*string`) is read. -/
structure SecurityGroup where
  GroupName : Option String
  deriving DecidableEq

/-- Embedding of `ec2.DescribeSecurityGroupsInput`: constructed empty at line 101. -/
structure DescribeSecurityGroupsInput where
  deriving DecidableEq

/-- Embedding of `ec2.DescribeSecurityGroupsOutput`: the list of security groups. -/
structure DescribeSecurityGroupsOutput where
  SecurityGroups : List SecurityGroup
  deriving DecidableEq

/-- The external collaborators (AWS SDK config loader and EC2 API), modelled
as pure fallible functions.  `config.LoadDefaultConfig` yields nothing the
program inspects, so its success value is `Unit`. -/
structure Env where
  loadDefaultConfig : Except GoError Unit
  describeSecurityGroups :
    DescribeSecurityGroupsInput → Except GoError DescribeSecurityGroupsOutput
  describeNetworkInterfaces :
    DescribeNetworkInterfacesInput → Except GoError DescribeNetworkInterfacesOutput

/-- The string constant passed to `aws.String` at line 139 of `main.go`. -/
def groupNameKey : String := "group-name"

/-- Literal pieces of the `fmt.Printf` format strings in `main`. -/
def headerTag : String := "Security group name: "

/-- Line printed at line 61 of `main.go`, inside the per-interface loop. -/
def interfacesLine : String := "Network interfaces:"

/-- Tag of the interface-id line (line 62 of `main.go`). -/
def idTag : String := "  NetworkInterface ID: "

/-- Tag of the instance-id line (line 64 of `main.go`). -/
def instanceTag : String := "  InstanceId: "

/-- Tag of the status line (line 66 of `main.go`). -/
def statusTag : String := "  Status: "

/-- The separator used by `strings.Join` in `SecurityGroupNames.String`. -/
def comma : String := ","

/-- The Go runtime panic message for dereferencing a nil pointer. -/
def nilPointerPanic : GoError :=
  "runtime error: invalid memory address or nil pointer dereference"

/-- The flag-collecting struct (lines 15-17 of `main.go`). -/
structure SecurityGroupNames where
  Names : List String
  deriving DecidableEq

/-- Method `Set` of `SecurityGroupNames` (lines 23-26): appends the value and returns a
nil error.  The Go method mutates the receiver; here the updated receiver is
returned together with the (always absent) error. -/
def SecurityGroupNames.Set (s : SecurityGroupNames) (value : String) :
    SecurityGroupNames × Option GoError :=
  ({ Names := s.Names ++ [value] }, none)

/-- Method `String` of `SecurityGroupNames` (lines 32-34): `strings.Join(s.Names, ",")`. -/
def SecurityGroupNames.String (s : SecurityGroupNames) : String :=
  String.intercalate comma s.Names

/-- The `DescribeNetworkInterfacesInput` constructed inline at lines 136-143
of `main.go`: a single `group-name` filter whose value list is the given
security-group name. -/
def networkInterfacesRequest (securityGroupName : String) :
    DescribeNetworkInterfacesInput :=
  { Filters := [{ Name := some groupNameKey, Values := [securityGroupName] }] }

/-- The copy loop at lines 149-152 of `main.go`: appends each response
interface to a fresh slice. -/
def copyNetworkInterfaces (nis : List NetworkInterface) : List NetworkInterface :=
  nis.foldl (fun acc ni => acc ++ [ni]) []

/-- Function `getNetworkInterfacesForSecurityGroup` (lines 122-155): loads config
(panicking on error), issues the filtered describe call (panicking on
error), and returns a copy of the response's interface list. -/
def getNetworkInterfacesForSecurityGroup (env : Env) (securityGroupName : String) :
    Except GoError (List NetworkInterface) :=
  match env.loadDefaultConfig with
  | .error err => .error err
  | .ok _ =>
    match env.describeNetworkInterfaces (networkInterfacesRequest securityGroupName) with
    | .error err => .error err
    | .ok out => .ok (copyNetworkInterfaces out.NetworkInterfaces)

/-- The name-collecting loop at lines 110-113 of `main.go`: dereferences
each `GroupName` pointer unconditionally, so a nil pointer panics. -/
def collectGroupNames : List SecurityGroup → Except GoError (List String)
  | [] => .ok []
  | g :: rest =>
    match g.GroupName with
    | none => .error nilPointerPanic
    | some n =>
      match collectGroupNames rest with
      | .error err => .error err
      | .ok names => .ok (n :: names)

/-- Function `getSecurityGroupNames` (lines 88-116): loads config, describes all
security groups with an empty input, and collects the (dereferenced) group
names.  Unused by `main` but present in the source. -/
def getSecurityGroupNames (env : Env) : Except GoError (List String) :=
  match env.loadDefaultConfig with
  | .error err => .error err
  | .ok _ =>
    match env.describeSecurityGroups {} with
    | .error err => .error err
    | .ok out => collectGroupNames out.SecurityGroups

/-- The conditional instance-id line (lines 63-65 of `main.go`): printed
only when the attachment pointer and its `InstanceId` pointer are non-nil. -/
def instanceLines (ni : NetworkInterface) : List String :=
  match ni.Attachment with
  | some att =>
    match att.InstanceId with
    | some iid => [instanceTag ++ iid]
    | none => []
  | none => []

/-- The per-interface print loop of `main` (lines 60-68).  Returns the lines
flushed to standard output and, when a nil `NetworkInterfaceId` is
dereferenced at line 62, the panic that aborts the process.  Note the
`Network interfaces:` line (line 61) is printed inside the loop, once per
interface; when the id dereference panics, that line of the current
iteration was already flushed. -/
def printInterfaces : List NetworkInterface → List String × Option GoError
  | [] => ([], none)
  | ni :: rest =>
    match ni.NetworkInterfaceId with
    | none => ([interfacesLine], some nilPointerPanic)
    | some id =>
      (interfacesLine :: (idTag ++ id) :: instanceLines ni ++
        (statusTag ++ ni.Status) :: "" :: (printInterfaces rest).fst,
       (printInterfaces rest).snd)

/-- The per-name loop of `main` (lines 56-69): for each collected name, look
up its interfaces (a lookup panic aborts before the header is printed, line
57 precedes line 59), print the header, print the interface blocks, then
continue with the remaining names.  Returns the flushed lines and the panic
that aborted the process, if any. -/
def mainLoop (env : Env) : List String → List String × Option GoError
  | [] => ([], none)
  | name :: rest =>
    match getNetworkInterfacesForSecurityGroup env name with
    | .error err => ([], some err)
    | .ok nis =>
      match (printInterfaces nis).snd with
      | some err => ((headerTag ++ name) :: (printInterfaces nis).fst, some err)
      | none =>
        ((headerTag ++ name) :: (printInterfaces nis).fst ++ (mainLoop env rest).fst,
         (mainLoop env rest).snd)

/-- The Go `flag` package calls `Set` once per occurrence of the flag, in
command-line order (external standard-library behaviour; `main` registers
the receiver at line 50 and parses at line 53).  `collectFlags` folds `Set`
over the occurrence values, starting from the zero value of the struct. -/
def collectFlags (flagValues : List String) : SecurityGroupNames :=
  flagValues.foldl (fun s v => (s.Set v).fst) { Names := [] }

/-- Entry point `main` (lines 45-70), parameterised by the environment and by the values
of the repeated `--security-group-names` flag occurrences, in order. -/
def mainRun (env : Env) (flagValues : List String) :
    List String × Option GoError :=
  mainLoop env (collectFlags flagValues).Names

/-! ### Line-classification helpers

Output lines are classified by their leading characters.  `leadsWith p l`
decides whether the character list `p` heads the character list `l`; it is
used only in theorem statements and proofs, never in the embedded code. -/

/-- Check that `p` is an initial segment of `l`: `leadsWith p l` is true when `p` is an initial segment of `l`. -/
def leadsWith : List Char → List Char → Bool
  | [], _ => true
  | _ :: _, [] => false
  | c :: cs, d :: ds => c == d && leadsWith cs ds

/-- String version of `leadsWith`. -/
def leadsWithStr (p line : String) : Bool := leadsWith p.data line.data

/-- A line is a header line when it starts with `Security group name: `. -/
def isHeaderLine (line : String) : Bool := leadsWithStr headerTag line

/-! ### Concrete sample data and environments, used to instantiate the
theorems at closed inputs. -/

def sgNameA : String := "web-servers"

def sgNameB : String := "db-servers"

def sgNameC : String := "cache-servers"

def niIdA : String := "eni-0a1b2c3d"

def niIdB : String := "eni-9f8e7d6c"

def instA : String := "i-0123456789abcdef0"

def statusInUse : String := "in-use"

def apiErrMsg : GoError := "api error UnauthorizedOperation"

/-- An attachment carrying an instance id. -/
def attA : NetworkInterfaceAttachment := { InstanceId := some instA }

/-- A well-formed interface with an attachment. -/
def niA : NetworkInterface :=
  { NetworkInterfaceId := some niIdA, Attachment := some attA, Status := statusInUse }

/-- A well-formed interface without an attachment. -/
def niB : NetworkInterface :=
  { NetworkInterfaceId := some niIdB, Attachment := none, Status := statusInUse }

/-- An interface whose id pointer is nil. -/
def niNilId : NetworkInterface :=
  { NetworkInterfaceId := none, Attachment := none, Status := statusInUse }

/-- A security group whose name pointer is nil. -/
def sgNil : SecurityGroup := { GroupName := none }

def sgOk : SecurityGroup := { GroupName := some sgNameA }

/-- Environment in which every describe call returns one interface. -/
def envOne : Env :=
  { loadDefaultConfig := Except.ok ()
    describeSecurityGroups := fun _ => Except.ok { SecurityGroups := [sgOk] }
    describeNetworkInterfaces := fun _ => Except.ok { NetworkInterfaces := [niA] } }

/-- Like `envOne` but with a failing security-group listing; it agrees with
`envOne` on config loading and on `describeNetworkInterfaces`. -/
def envOneAlt : Env :=
  { loadDefaultConfig := Except.ok ()
    describeSecurityGroups := fun _ => Except.error apiErrMsg
    describeNetworkInterfaces := fun _ => Except.ok { NetworkInterfaces := [niA] } }

/-- Environment in which every describe call returns two interfaces. -/
def envTwo : Env :=
  { loadDefaultConfig := Except.ok ()
    describeSecurityGroups := fun _ => Except.ok { SecurityGroups := [sgOk] }
    describeNetworkInterfaces := fun _ => Except.ok { NetworkInterfaces := [niA, niB] } }

/-- Environment in which every describe call returns zero interfaces. -/
def envEmpty : Env :=
  { loadDefaultConfig := Except.ok ()
    describeSecurityGroups := fun _ => Except.ok { SecurityGroups := [] }
    describeNetworkInterfaces := fun _ => Except.ok { NetworkInterfaces := [] } }

/-- Environment in which looking up `sgNameB` fails and every other lookup
returns one interface. -/
def envFailB : Env :=
  { loadDefaultConfig := Except.ok ()
    describeSecurityGroups := fun _ => Except.ok { SecurityGroups := [sgOk] }
    describeNetworkInterfaces := fun inp =>
      if inp = networkInterfacesRequest sgNameB then Except.error apiErrMsg
      else Except.ok { NetworkInterfaces := [niA] } }

theorem leadsWith_self_append (p t : List Char) : leadsWith p (p ++ t) = true := by
  induction p with
  | nil => rfl
  | cons c cs ih => simp [leadsWith, ih]

theorem leadsWithStr_self_append (p t : String) : leadsWithStr p (p ++ t) = true := by
  unfold leadsWithStr
  rw [String.data_append]
  exact leadsWith_self_append _ _

/-- Two strings on which some recognizer disagrees are distinct. -/
theorem ne_of_leadsWithStr (p : String) {a b : String} (ha : leadsWithStr p a = true)
    (hb : leadsWithStr p b = false) : a ≠ b := by
  intro h
  rw [h, hb] at ha
  exact Bool.noConfusion ha

theorem string_append_inj {p a b : String} (h : p ++ a = p ++ b) : a = b := by
  have hd := congrArg String.data h
  rw [String.data_append, String.data_append] at hd
  exact String.ext (List.append_cancel_left hd)

/-! Distinctness of the output-line shapes. -/

theorem headerLine_isHeader (n : String) : isHeaderLine (headerTag ++ n) = true :=
  leadsWithStr_self_append headerTag n

theorem interfacesLine_notHeader : isHeaderLine interfacesLine = false := rfl

theorem idLine_notHeader (id : String) : isHeaderLine (idTag ++ id) = false := rfl

theorem instanceLine_notHeader (iid : String) :
    isHeaderLine (instanceTag ++ iid) = false := rfl

theorem statusLine_notHeader (s : String) :
    isHeaderLine (statusTag ++ s) = false := rfl

theorem emptyLine_notHeader : isHeaderLine "" = false := rfl

theorem idLine_ne_interfacesLine (id : String) : (idTag ++ id) ≠ interfacesLine :=
  ne_of_leadsWithStr idTag (leadsWithStr_self_append idTag id) rfl

theorem instanceLine_ne_interfacesLine (iid : String) :
    (instanceTag ++ iid) ≠ interfacesLine :=
  ne_of_leadsWithStr instanceTag (leadsWithStr_self_append instanceTag iid) rfl

theorem statusLine_ne_interfacesLine (s : String) :
    (statusTag ++ s) ≠ interfacesLine :=
  ne_of_leadsWithStr statusTag (leadsWithStr_self_append statusTag s) rfl

theorem empty_ne_interfacesLine : ("" : String) ≠ interfacesLine :=
  Ne.symm (ne_of_leadsWithStr interfacesLine rfl rfl)

theorem instanceLine_ne_idLine (iid id : String) :
    (instanceTag ++ iid) ≠ (idTag ++ id) :=
  ne_of_leadsWithStr instanceTag (leadsWithStr_self_append instanceTag iid) rfl

theorem instanceLine_ne_statusLine (iid s : String) :
    (instanceTag ++ iid) ≠ (statusTag ++ s) :=
  ne_of_leadsWithStr instanceTag (leadsWithStr_self_append instanceTag iid) rfl

theorem instanceLine_ne_empty (iid : String) : (instanceTag ++ iid) ≠ "" :=
  ne_of_leadsWithStr instanceTag (leadsWithStr_self_append instanceTag iid) rfl

/-! ### Basic facts about the embedded operations. -/

theorem foldl_append_singleton (xs : List NetworkInterface) :
    ∀ acc, xs.foldl (fun a ni => a ++ [ni]) acc = acc ++ xs := by
  induction xs with
  | nil => intro acc; simp
  | cons x xs ih => intro acc; simp [List.foldl_cons, ih]

/-- The copy loop is the identity on the response list. -/
theorem copyNetworkInterfaces_eq (nis : List NetworkInterface) :
    copyNetworkInterfaces nis = nis := by
  simpa using foldl_append_singleton nis []

theorem foldl_set_names (vs : List String) :
    ∀ s : SecurityGroupNames,
      (vs.foldl (fun s v => (s.Set v).fst) s).Names = s.Names ++ vs := by
  induction vs with
  | nil => intro s; simp
  | cons v vs ih =>
    intro s
    rw [List.foldl_cons, ih]
    simp [SecurityGroupNames.Set]

/-- Folding `Set` over the flag occurrences collects exactly those values. -/
theorem collectFlags_names (vs : List String) : (collectFlags vs).Names = vs := by
  simpa using foldl_set_names vs { Names := [] }

/-- The instance-id lines contain no header line. -/
theorem filter_header_instanceLines (ni : NetworkInterface) :
    (instanceLines ni).filter isHeaderLine = [] := by
  rcases ni with ⟨nid, att, st⟩
  cases att with
  | none => rfl
  | some a =>
    rcases a with ⟨iid⟩
    cases iid with
    | none => rfl
    | some i => simp [instanceLines, List.filter_cons, instanceLine_notHeader]

/-- The interface blocks contain no header line. -/
theorem filter_header_printInterfaces (nis : List NetworkInterface) :
    (printInterfaces nis).fst.filter isHeaderLine = [] := by
  induction nis with
  | nil => rfl
  | cons ni rest ih =>
    cases hid : ni.NetworkInterfaceId with
    | none =>
      simp [printInterfaces, hid, List.filter_cons, interfacesLine_notHeader]
    | some id =>
      simp [printInterfaces, hid, List.filter_cons, List.filter_append,
        interfacesLine_notHeader, idLine_notHeader, statusLine_notHeader,
        emptyLine_notHeader, filter_header_instanceLines, ih]

/-- Well-formed records (non-nil interface ids) print without panicking. -/
theorem printInterfaces_snd_none (nis : List NetworkInterface)
    (hwf : ∀ ni ∈ nis, ni.NetworkInterfaceId.isSome = true) :
    (printInterfaces nis).snd = none := by
  induction nis with
  | nil => rfl
  | cons ni rest ih =>
    have hni := hwf ni (List.mem_cons_self ni rest)
    cases hid : ni.NetworkInterfaceId with
    | none => rw [hid] at hni; exact Bool.noConfusion hni
    | some id =>
      simp only [printInterfaces, hid]
      exact ih fun x hx => hwf x (List.mem_cons_of_mem ni hx)

/-- A record with a nil interface id aborts the print loop. -/
theorem printInterfaces_snd_panic (nis : List NetworkInterface)
    (h : ∃ ni ∈ nis, ni.NetworkInterfaceId = none) :
    (printInterfaces nis).snd = some nilPointerPanic := by
  induction nis with
  | nil => obtain ⟨ni, hni, _⟩ := h; exact absurd hni (List.not_mem_nil ni)
  | cons ni rest ih =>
    obtain ⟨x, hx, hxid⟩ := h
    cases hid : ni.NetworkInterfaceId with
    | none => simp [printInterfaces, hid]
    | some id =>
      simp only [printInterfaces, hid]
      rcases List.mem_cons.mp hx with hx1 | hx2
      · subst hx1; rw [hid] at hxid; exact Option.noConfusion hxid
      · exact ih ⟨x, hx2, hxid⟩

/-- Well-formed security groups (non-nil names) collect without panicking. -/
theorem collectGroupNames_ok (gs : List SecurityGroup)
    (hwf : ∀ g ∈ gs, g.GroupName.isSome = true) :
    ∃ names, collectGroupNames gs = Except.ok names := by
  induction gs with
  | nil => exact ⟨[], rfl⟩
  | cons g rest ih =>
    have hg := hwf g (List.mem_cons_self g rest)
    cases hgn : g.GroupName with
    | none => rw [hgn] at hg; exact Bool.noConfusion hg
    | some n =>
      obtain ⟨names, hnames⟩ := ih fun x hx => hwf x (List.mem_cons_of_mem g hx)
      exact ⟨n :: names, by simp [collectGroupNames, hgn, hnames]⟩

/-- A security group with a nil name aborts the collection loop. -/
theorem collectGroupNames_panic (gs : List SecurityGroup)
    (h : ∃ g ∈ gs, g.GroupName = none) :
    collectGroupNames gs = Except.error nilPointerPanic := by
  induction gs with
  | nil => obtain ⟨g, hg, _⟩ := h; exact absurd hg (List.not_mem_nil g)
  | cons g rest ih =>
    obtain ⟨x, hx, hxn⟩ := h
    cases hgn : g.GroupName with
    | none => simp [collectGroupNames, hgn]
    | some n =>
      rcases List.mem_cons.mp hx with hx1 | hx2
      · subst hx1; rw [hgn] at hxn; exact Option.noConfusion hxn
      · simp [collectGroupNames, hgn, ih ⟨x, hx2, hxn⟩]

/-- The instance-id lines never contain the `Network interfaces:` line. -/
theorem count_interfacesLine_instanceLines (ni : NetworkInterface) :
    (instanceLines ni).count interfacesLine = 0 := by
  rcases ni with ⟨nid, att, st⟩
  cases att with
  | none => rfl
  | some a =>
    rcases a with ⟨iid⟩
    cases iid with
    | none => rfl
    | some i =>
      simp [instanceLines, List.count_cons, instanceLine_ne_interfacesLine i]

/-- For well-formed records the `Network interfaces:` line appears once per
interface. -/
theorem printInterfaces_count (nis : List NetworkInterface)
    (hwf : ∀ ni ∈ nis, ni.NetworkInterfaceId.isSome = true) :
    (printInterfaces nis).fst.count interfacesLine = nis.length := by
  induction nis with
  | nil => rfl
  | cons ni rest ih =>
    have hni := hwf ni (List.mem_cons_self ni rest)
    cases hid : ni.NetworkInterfaceId with
    | none => rw [hid] at hni; exact Bool.noConfusion hni
    | some id =>
      have ih' := ih fun x hx => hwf x (List.mem_cons_of_mem ni hx)
      simp [printInterfaces, hid, List.count_cons, List.count_append,
        count_interfacesLine_instanceLines, idLine_ne_interfacesLine id,
        statusLine_ne_interfacesLine, empty_ne_interfacesLine, ih']

/-- Membership of an instance-id line among the conditional instance-id
lines characterises the attachment. -/
theorem mem_instanceLines_iff (ni : NetworkInterface) (iid : String) :
    (instanceTag ++ iid) ∈ instanceLines ni ↔
      ∃ att, ni.Attachment = some att ∧ att.InstanceId = some iid := by
  rcases ni with ⟨nid, att, st⟩
  cases att with
  | none => simp [instanceLines]
  | some a =>
    rcases a with ⟨ii⟩
    cases ii with
    | none => simp [instanceLines]
    | some j =>
      simp only [instanceLines, List.mem_singleton]
      constructor
      · intro h
        exact ⟨⟨some j⟩, rfl, by rw [string_append_inj h]⟩
      · rintro ⟨a, ha, hii⟩
        obtain rfl := Option.some.inj ha
        obtain rfl := Option.some.inj hii
        rfl

/-- Per-name loop under all-successful, well-formed lookups: no abort, and
the header lines are exactly the collected names in order. -/
theorem mainLoop_success (env : Env) :
    ∀ names : List String,
      (∀ name ∈ names, ∃ nis,
        getNetworkInterfacesForSecurityGroup env name = Except.ok nis ∧
        ∀ ni ∈ nis, ni.NetworkInterfaceId.isSome = true) →
      (mainLoop env names).snd = none ∧
      (mainLoop env names).fst.filter isHeaderLine =
        names.map (fun name => headerTag ++ name) := by
  intro names
  induction names with
  | nil => intro _; exact ⟨rfl, rfl⟩
  | cons name rest ih =>
    intro h
    obtain ⟨nis, hok, hwf⟩ := h name (List.mem_cons_self name rest)
    have hsnd := printInterfaces_snd_none nis hwf
    have hrest := ih fun x hx => h x (List.mem_cons_of_mem name hx)
    constructor
    · simp only [mainLoop, hok, hsnd]
      exact hrest.1
    · simp only [mainLoop, hok, hsnd, List.map_cons]
      simp [List.filter_cons, List.filter_append, filter_header_printInterfaces,
        hrest.2, headerLine_isHeader]

/-- Per-name loop aborted by a failing lookup: the names before the failure
produce their full output, the failing name and all later names produce
nothing, and the error is surfaced. -/
theorem mainLoop_abort (env : Env) (bad : String) (err : GoError)
    (hbad : getNetworkInterfacesForSecurityGroup env bad = Except.error err) :
    ∀ pre post : List String, (mainLoop env pre).snd = none →
      mainLoop env (pre ++ bad :: post) = ((mainLoop env pre).fst, some err) := by
  intro pre
  induction pre with
  | nil => intro post _; simp [mainLoop, hbad]
  | cons name pre' ih =>
    intro post hpre
    cases hok : getNetworkInterfacesForSecurityGroup env name with
    | error e => rw [show mainLoop env (name :: pre') = ([], some e) from by
        simp [mainLoop, hok]] at hpre; exact Option.noConfusion hpre
    | ok nis =>
      cases hsnd : (printInterfaces nis).snd with
      | some e =>
        simp only [mainLoop, hok, hsnd] at hpre
        exact Option.noConfusion hpre
      | none =>
        have hpre' : (mainLoop env pre').snd = none := by
          simpa only [mainLoop, hok, hsnd] using hpre
        rw [List.cons_append]
        simp only [mainLoop, hok, hsnd]
        rw [ih post hpre']

/-! ### Claim theorems -/

/-- C1: for a list of `--security-group-names` flag values (duplicates
allowed) whose lookups all succeed and return records carrying the
interface ids required by the data model, the program does not abort, and
the header lines of its output are exactly one `Security group name: <name>`
line per flag occurrence, in flag order; a duplicated name contributes a
separate full query-and-print cycle for each occurrence. -/
theorem C1_header_per_flag_occurrence (env : Env) (flagValues : List String)
    (h : ∀ name ∈ flagValues, ∃ nis,
      getNetworkInterfacesForSecurityGroup env name = Except.ok nis ∧
      ∀ ni ∈ nis, ni.NetworkInterfaceId.isSome = true) :
    (mainRun env flagValues).snd = none ∧
    (mainRun env flagValues).fst.filter isHeaderLine =
      flagValues.map (fun name => headerTag ++ name) := by
  unfold mainRun
  rw [collectFlags_names]
  exact mainLoop_success env flagValues h

/-- C1 witness: two occurrences of the same name yield two header lines. -/
theorem C1_witness :
    (mainRun envOne [sgNameA, sgNameA]).snd = none ∧
    (mainRun envOne [sgNameA, sgNameA]).fst.filter isHeaderLine =
      [sgNameA, sgNameA].map (fun name => headerTag ++ name) := by
  refine C1_header_per_flag_occurrence envOne [sgNameA, sgNameA] ?_
  intro name _
  refine ⟨[niA], rfl, ?_⟩
  intro ni hni
  rw [List.mem_singleton] at hni
  subst hni
  rfl

/-- C2: if every name before `bad` processes cleanly and the lookup of
`bad` fails (config-load or describe error), the program aborts with that
error: the output is exactly the output for the names before `bad` — no
header for `bad`, no lines for any later name. -/
theorem C2_abort_on_lookup_error (env : Env) (pre post : List String)
    (bad : String) (err : GoError)
    (hpre : (mainRun env pre).snd = none)
    (hbad : getNetworkInterfacesForSecurityGroup env bad = Except.error err) :
    mainRun env (pre ++ bad :: post) = ((mainRun env pre).fst, some err) := by
  unfold mainRun at hpre ⊢
  rw [collectFlags_names] at hpre ⊢
  rw [collectFlags_names]
  exact mainLoop_abort env bad err hbad pre post hpre

/-- C2 witness: with the middle of three names failing, output stops after
the first name and the error is surfaced. -/
theorem C2_witness :
    mainRun envFailB [sgNameA, sgNameB, sgNameC] =
      ((mainRun envFailB [sgNameA]).fst, some apiErrMsg) := by
  exact C2_abort_on_lookup_error envFailB [sgNameA] [sgNameC] sgNameB apiErrMsg rfl rfl

/-- C3 counterexample: for one group whose lookup returns two interfaces,
the `Network interfaces:` line appears twice in the output, not exactly
once per group as the claim states. -/
theorem C3_counterexample :
    (mainRun envTwo [sgNameA]).fst.count interfacesLine = 2 ∧
    ¬ (mainRun envTwo [sgNameA]).fst.count interfacesLine = 1 := by
  constructor
  · decide
  · decide

/-- C3 (amended): for a group whose lookup succeeds with well-formed
records, the output is the header line followed by one block per interface,
where each block begins with its own `Network interfaces:` line — the line
appears once per interface (so `k` times for `k` interfaces), not once per
group. -/
theorem C3_amended_interfaces_line_per_interface (env : Env) (name : String)
    (nis : List NetworkInterface)
    (hok : getNetworkInterfacesForSecurityGroup env name = Except.ok nis)
    (hwf : ∀ ni ∈ nis, ni.NetworkInterfaceId.isSome = true) :
    mainLoop env [name] = ((headerTag ++ name) :: (printInterfaces nis).fst, none) ∧
    (printInterfaces nis).fst.count interfacesLine = nis.length := by
  have hsnd := printInterfaces_snd_none nis hwf
  constructor
  · simp [mainLoop, hok, hsnd]
  · exact printInterfaces_count nis hwf

/-- C3 witness: the amended statement at a two-interface group. -/
theorem C3_witness :
    mainLoop envTwo [sgNameA] =
      ((headerTag ++ sgNameA) :: (printInterfaces [niA, niB]).fst, none) ∧
    (printInterfaces [niA, niB]).fst.count interfacesLine = [niA, niB].length := by
  refine C3_amended_interfaces_line_per_interface envTwo sgNameA [niA, niB] rfl ?_
  decide

/-- C4: in the block printed for an interface record (with the id the data
model requires), an `InstanceId:` line for a given identifier appears iff
the record has an attachment carrying exactly that identifier; with no
attachment, or an attachment without an instance id, no such line appears. -/
theorem C4_instance_line_iff_attachment (ni : NetworkInterface) (id iid : String)
    (hid : ni.NetworkInterfaceId = some id) :
    (instanceTag ++ iid) ∈ (printInterfaces [ni]).fst ↔
      ∃ att, ni.Attachment = some att ∧ att.InstanceId = some iid := by
  have hfst : (printInterfaces [ni]).fst =
      interfacesLine :: (idTag ++ id) ::
        instanceLines ni ++ [statusTag ++ ni.Status, ""] := by
    simp [printInterfaces, hid]
  rw [hfst, ← mem_instanceLines_iff ni iid]
  constructor
  · intro h
    rcases List.mem_cons.mp h with h1 | h
    · exact absurd h1 (instanceLine_ne_interfacesLine iid)
    rcases List.mem_cons.mp h with h1 | h
    · exact absurd h1 (instanceLine_ne_idLine iid id)
    rcases List.mem_append.mp h with h1 | h
    · exact h1
    rcases List.mem_cons.mp h with h1 | h
    · exact absurd h1 (instanceLine_ne_statusLine iid ni.Status)
    rcases List.mem_cons.mp h with h1 | h
    · exact absurd h1 (instanceLine_ne_empty iid)
    · exact absurd h (List.not_mem_nil _)
  · intro h
    exact List.mem_cons_of_mem _
      (List.mem_cons_of_mem _ (List.mem_append_left _ h))

/-- C4 witness: the attached interface prints exactly its instance id. -/
theorem C4_witness : (instanceTag ++ instA) ∈ (printInterfaces [niA]).fst :=
  (C4_instance_line_iff_attachment niA niIdA instA rfl).mpr ⟨attA, rfl, rfl⟩

/-- C5: the describe request built for a name carries exactly one filter:
name `group-name` (pinned character by character), values the singleton
list holding the input name unchanged; and the lookup's behaviour depends
on the environment only through config loading and the response to exactly
this request. -/
theorem C5_single_exact_filter (name : String) :
    (networkInterfacesRequest name).Filters =
      [{ Name := some groupNameKey, Values := [name] }] ∧
    groupNameKey.data = ['g', 'r', 'o', 'u', 'p', '-', 'n', 'a', 'm', 'e'] ∧
    (∀ env₁ env₂ : Env,
      env₁.loadDefaultConfig = env₂.loadDefaultConfig →
      env₁.describeNetworkInterfaces (networkInterfacesRequest name) =
        env₂.describeNetworkInterfaces (networkInterfacesRequest name) →
      getNetworkInterfacesForSecurityGroup env₁ name =
        getNetworkInterfacesForSecurityGroup env₂ name) := by
  refine ⟨rfl, rfl, ?_⟩
  intro env₁ env₂ h1 h2
  unfold getNetworkInterfacesForSecurityGroup
  rw [h1, h2]

/-- C5 witness: the request for a concrete name, and invariance of the
lookup between two environments agreeing on that request. -/
theorem C5_witness :
    (networkInterfacesRequest sgNameA).Filters =
      [{ Name := some groupNameKey, Values := [sgNameA] }] ∧
    getNetworkInterfacesForSecurityGroup envOne sgNameA =
      getNetworkInterfacesForSecurityGroup envOneAlt sgNameA := by
  have h := C5_single_exact_filter sgNameA
  exact ⟨h.1, h.2.2 envOne envOneAlt rfl rfl⟩

/-- C6: on a successful describe response the lookup returns exactly the
response's interface list, element for element and in order; the copy loop
it runs is the identity on that list. -/
theorem C6_returns_response_list (env : Env) (name : String)
    (out : DescribeNetworkInterfacesOutput)
    (hcfg : env.loadDefaultConfig = Except.ok ())
    (hresp : env.describeNetworkInterfaces (networkInterfacesRequest name) =
      Except.ok out) :
    getNetworkInterfacesForSecurityGroup env name =
      Except.ok out.NetworkInterfaces ∧
    copyNetworkInterfaces out.NetworkInterfaces = out.NetworkInterfaces := by
  constructor
  · simp [getNetworkInterfacesForSecurityGroup, hcfg, hresp, copyNetworkInterfaces_eq]
  · exact copyNetworkInterfaces_eq _

/-- C6 witness: the lookup in `envOne` returns the response list `[niA]`. -/
theorem C6_witness :
    getNetworkInterfacesForSecurityGroup envOne sgNameA = Except.ok [niA] := by
  have h := C6_returns_response_list envOne sgNameA
    { NetworkInterfaces := [niA] } rfl rfl
  exact h.1

/-- C7 counterexample: for a name whose lookup succeeds with zero
interfaces the program prints only the header line — the claimed
`Network interfaces:` line is absent from the output. -/
theorem C7_counterexample :
    (mainRun envEmpty [sgNameA]).fst = [headerTag ++ sgNameA] ∧
    interfacesLine ∉ (mainRun envEmpty [sgNameA]).fst := by
  constructor
  · rfl
  · decide

/-- C7 (amended): for a name whose lookup succeeds with zero interfaces,
the header line is still printed, but it is followed by no further lines
for that group — no `Network interfaces:` line and no interface blocks;
output continues immediately with the remaining names. -/
theorem C7_amended_header_only (env : Env) (name : String) (rest : List String)
    (hok : getNetworkInterfacesForSecurityGroup env name = Except.ok []) :
    mainLoop env (name :: rest) =
      ((headerTag ++ name) :: (mainLoop env rest).fst, (mainLoop env rest).snd) ∧
    (printInterfaces ([] : List NetworkInterface)).fst = [] := by
  constructor
  · simp [mainLoop, hok, printInterfaces]
  · rfl

/-- C7 witness: the amended statement at a concrete empty lookup. -/
theorem C7_witness :
    mainLoop envEmpty [sgNameA] = ([headerTag ++ sgNameA], none) :=
  (C7_amended_header_only envEmpty sgNameA [] rfl).1

/-- C8: with zero flag occurrences the program prints nothing and finishes
without error, in any environment (so no lookup can influence the result). -/
theorem C8_no_flags_no_output (env : Env) : mainRun env [] = ([], none) := rfl

/-- C9: `Set` always succeeds (returns no error) and appends its value at
the end of the collected sequence; `String` renders the comma-joined
collected values; folding `Set` over the flag values renders them
comma-joined in insertion order. -/
theorem C9_set_always_appends (s : SecurityGroupNames) (v : String)
    (vs : List String) :
    (s.Set v).snd = none ∧
    (s.Set v).fst.Names = s.Names ++ [v] ∧
    s.String = String.intercalate comma s.Names ∧
    comma.data = [','] ∧
    (collectFlags vs).String = String.intercalate comma vs := by
  refine ⟨rfl, rfl, rfl, rfl, ?_⟩
  unfold SecurityGroupNames.String
  rw [collectFlags_names]

/-- C10: the print loop dereferences each `NetworkInterfaceId`
unconditionally and `getSecurityGroupNames`'s loop dereferences each
`GroupName` unconditionally: under non-nil-id preconditions neither loop
panics, and any record violating the precondition aborts with the nil
pointer dereference panic. -/
theorem C10_nil_deref_precondition :
    (∀ nis : List NetworkInterface,
      (∀ ni ∈ nis, ni.NetworkInterfaceId.isSome = true) →
        (printInterfaces nis).snd = none) ∧
    (∀ nis : List NetworkInterface,
      (∃ ni ∈ nis, ni.NetworkInterfaceId = none) →
        (printInterfaces nis).snd = some nilPointerPanic) ∧
    (∀ gs : List SecurityGroup,
      (∀ g ∈ gs, g.GroupName.isSome = true) →
        ∃ names, collectGroupNames gs = Except.ok names) ∧
    (∀ gs : List SecurityGroup,
      (∃ g ∈ gs, g.GroupName = none) →
        collectGroupNames gs = Except.error nilPointerPanic) :=
  ⟨printInterfaces_snd_none, printInterfaces_snd_panic,
    collectGroupNames_ok, collectGroupNames_panic⟩

/-- C10 witness: a well-formed record prints; nil-id and nil-name records
abort with the nil pointer panic. -/
theorem C10_witness :
    (printInterfaces [niA]).snd = none ∧
    (printInterfaces [niNilId]).snd = some nilPointerPanic ∧
    collectGroupNames [sgNil] = Except.error nilPointerPanic := by
  have h := C10_nil_deref_precondition
  refine ⟨h.1 [niA] ?_, h.2.1 [niNilId] ?_, h.2.2.2 [sgNil] ?_⟩
  · intro ni hni
    rw [List.mem_singleton] at hni
    subst hni
    rfl
  · exact ⟨niNilId, List.mem_singleton_self _, rfl⟩
  · exact ⟨sgNil, List.mem_singleton_self _, rfl⟩

end SGNI
